import Mathlib

/-!
Verification development for the GTM site-speed auditor.

The embedding below translates the audit pipeline of the repository:
* `src/app/api/audit/route.ts` — the per-URL audit API route
  (`extractMetrics`, `auditURL`, `POST`), and
* `src/app/page.tsx` — the client batch orchestrator
  (`validateUrls`, `getPerformanceStatus`, `calculateSummary`, the
  `startAudit` fetch loop).

JavaScript numbers are modelled as rationals (`ℚ`); `Math.round` is
modelled exactly (round half towards positive infinity); the browser
measurement oracle (Lighthouse) is an explicit parameter supplying one raw
report per round; the browser session lifecycle is modelled by an event
trace so that acquisition/release behaviour is provable.
-/

/-- `Math.round` in JavaScript: `⌊x + 1/2⌋` (ties round towards `+∞`). -/
def jsRound (x : ℚ) : ℤ := ⌊x + 1/2⌋

/-- The `mean` helper of `auditURL` (route.ts line 161):
`arr.reduce((sum, v) => sum + v, 0) / (arr.length || 1)`. -/
def meanJS (xs : List ℚ) : ℚ :=
  xs.sum / (if xs.length = 0 then 1 else (xs.length : ℚ))

/-- The character class `[A-Z0-9]` of the container-ID regex. -/
def isUpperAlnum (c : Char) : Bool :=
  ('A' ≤ c && c ≤ 'Z') || ('0' ≤ c && c ≤ '9')

/-- The literal part of the regex `/gtm\.js\?id=(GTM-[A-Z0-9]+)/` up to and
including the literal `GTM-` that starts the capture group. -/
def gtmLit : List Char := "gtm.js?id=GTM-".toList

/-- The literal head of the capture group `(GTM-[A-Z0-9]+)`. -/
def capHead : List Char := "GTM-".toList

/-- `startsList p s` is true iff `p` is an initial segment of `s`. -/
def startsList : List Char → List Char → Bool
  | [], _ => true
  | _ :: _, [] => false
  | a :: as, b :: bs => a == b && startsList as bs

/-- Attempt to match the regex `gtm\.js\?id=(GTM-[A-Z0-9]+)` at the very
start of `s`; on success return the capture group (greedy `+`). -/
def matchAt (s : List Char) : Option (List Char) :=
  if startsList gtmLit s then
    let run := (s.drop gtmLit.length).takeWhile isUpperAlnum
    if run = [] then none else some (capHead ++ run)
  else none

/-- `String.prototype.match` with the (non-global) regex
`/gtm\.js\?id=(GTM-[A-Z0-9]+)/`: the capture of the leftmost match. -/
def findGtm : List Char → Option (List Char)
  | [] => none
  | c :: cs =>
    match matchAt (c :: cs) with
    | some cap => some cap
    | none => findGtm cs

/-- One item of the Lighthouse `bootup-time` audit details
(route.ts lines 65–84).  `url` is `none` when `item.url` is not a string
(`typeof item.url !== 'string'`); the numeric fields are `none` when the
raw report omits them (the `?? 0` defaults in the source). -/
structure RawItem where
  url : Option String
  total : Option ℚ
  scripting : Option ℚ
  scriptParseCompile : Option ℚ
deriving DecidableEq, Repr

/-- Metrics for a single GTM container (route.ts `GtmMetric`). -/
structure GtmMetric where
  containerId : String
  totalCpuTime : ℚ
  scriptEvaluation : ℚ
  scriptParseTime : ℚ
deriving DecidableEq, Repr

/-- The message thrown by `extractMetrics` when no container matched
(route.ts lines 86–90). -/
def noContainerMsg : String :=
  "No Google Tag Manager container scripts (gtm.js) found on this page by Lighthouse."

/-- Whether a raw item's URL matches the GTM regex (loop body guard of
`extractMetrics`, route.ts lines 69–72). -/
def itemMatches (item : RawItem) : Bool :=
  match item.url with
  | none => false
  | some u => (findGtm u.toList).isSome

/-- The capture the regex produces for a matching item (empty for
non-matching items, which the source never reads). -/
def captureOf (item : RawItem) : List Char :=
  match item.url with
  | none => []
  | some u => (findGtm u.toList).getD []

/-- The `GtmMetric` that `extractMetrics` pushes for a matching item
(route.ts lines 74–83), with the `?? 0` defaults. -/
def metricOf (item : RawItem) : GtmMetric :=
  { containerId := String.mk (captureOf item)
    totalCpuTime := item.total.getD 0
    scriptEvaluation := item.scripting.getD 0
    scriptParseTime := item.scriptParseCompile.getD 0 }

/-- `extractMetrics` (route.ts lines 64–93): one `GtmMetric` per
`bootup-time` item whose URL matches the GTM regex; throws
(`Except.error`) when no item matched. -/
def extractMetrics (items : List RawItem) : Except String (List GtmMetric) :=
  let gtmMetrics := items.filterMap (fun item =>
    match item.url with
    | none => none
    | some u =>
      match findGtm u.toList with
      | none => none
      | some cap =>
        some { containerId := String.mk cap
               totalCpuTime := item.total.getD 0
               scriptEvaluation := item.scripting.getD 0
               scriptParseTime := item.scriptParseCompile.getD 0 })
  if gtmMetrics = [] then Except.error noContainerMsg else Except.ok gtmMetrics

/-- A container metric after averaging: the three fields have been passed
through `Math.round`, so they are integers (route.ts lines 164–172). -/
structure AveragedMetric where
  containerId : String
  totalCpuTime : ℤ
  scriptEvaluation : ℤ
  scriptParseTime : ℤ
deriving DecidableEq, Repr

/-- The key set of the `aggregated` JavaScript `Map` of `auditURL`
(route.ts lines 144–159) in insertion order: container IDs in order of
first appearance, deduplicated.  `seen` accumulates the keys already
inserted. -/
def dedupKeys (seen : List String) : List String → List String
  | [] => []
  | x :: xs => if x ∈ seen then dedupKeys seen xs else x :: dedupKeys (x :: seen) xs

/-- All metrics of all runs in iteration order (the nested loop of
route.ts lines 149–159). -/
def flatMetrics (runs : List (List GtmMetric)) : List GtmMetric := runs.flatten

/-- The array of samples pushed for container `id` and field `f` by the
aggregation loop: the field values of the entries with that ID, in
iteration order. -/
def samplesOf (f : GtmMetric → ℚ) (id : String) (runs : List (List GtmMetric)) : List ℚ :=
  ((flatMetrics runs).filter (fun m => m.containerId == id)).map f

/-- The aggregation-and-averaging tail of `auditURL`
(route.ts lines 143–172): group the per-run metrics by container ID,
then for each ID output the `Math.round`ed mean of each field's samples,
in first-appearance order of the IDs. -/
def averageRuns (runs : List (List GtmMetric)) : List AveragedMetric :=
  (dedupKeys [] ((flatMetrics runs).map (fun m => m.containerId))).map (fun id =>
    { containerId := id
      totalCpuTime := jsRound (meanJS (samplesOf (fun m => m.totalCpuTime) id runs))
      scriptEvaluation := jsRound (meanJS (samplesOf (fun m => m.scriptEvaluation) id runs))
      scriptParseTime := jsRound (meanJS (samplesOf (fun m => m.scriptParseTime) id runs)) })

/-- Whether container `id` appears in a run's extraction. -/
def appearsIn (id : String) (run : List GtmMetric) : Bool :=
  run.any (fun m => m.containerId == id)

/-- The rounds in which container `id` appeared. -/
def roundsWith (id : String) (runs : List (List GtmMetric)) : List (List GtmMetric) :=
  runs.filter (appearsIn id)

/-- The value a single round reports for container `id` under field `f`
(the sum of the field over the entries with that ID; when the round holds
at most one entry for the ID this is that entry's value). -/
def roundValue (f : GtmMetric → ℚ) (id : String) (run : List GtmMetric) : ℚ :=
  ((run.filter (fun m => m.containerId == id)).map f).sum

/-- The outcome of one measurement round as seen by `auditURL`'s loop
(route.ts lines 123–138): either the Lighthouse invocation itself throws,
or it yields a raw `bootup-time` report for `extractMetrics`. -/
inductive RoundInput
  | fail (msg : String)
  | report (items : List RawItem)
deriving DecidableEq, Repr

/-- Browser-session / measurement events of `auditURL`, used to model the
resource lifecycle: `launch` (route.ts line 107), each Lighthouse
invocation (line 126), and `chrome.kill()` in the `finally` (line 140). -/
inductive SEvent
  | acquire
  | release
  | measure
deriving DecidableEq, Repr

/-- The measurement loop of `auditURL` (route.ts lines 122–138) as a
trace-producing computation: rounds run sequentially, each attempted round
emits one `measure` event, and the first failure aborts the loop with that
error. -/
def loopRounds : List RoundInput → List SEvent × Except String (List (List GtmMetric))
  | [] => ([], Except.ok [])
  | RoundInput.fail m :: _ => ([SEvent.measure], Except.error m)
  | RoundInput.report items :: rest =>
    match extractMetrics items with
    | Except.error m => ([SEvent.measure], Except.error m)
    | Except.ok ms =>
      let next := loopRounds rest
      (SEvent.measure :: next.1,
       match next.2 with
       | Except.error m => Except.error m
       | Except.ok rs => Except.ok (ms :: rs))

/-- `try … finally …`: the finalizer's events always run after the body's,
whatever the body's outcome (route.ts lines 122–141). -/
def tryFinallyT {α : Type} (body : List SEvent × Except String α) (fin : List SEvent) :
    List SEvent × Except String α :=
  (body.1 ++ fin, body.2)

/-- `auditURL` (route.ts lines 98–177), with the browser session and the
Lighthouse rounds made explicit: acquire the session once, run the rounds
under `try/finally` with the release as finalizer, then average the
collected runs.  Returns the full event trace together with the result. -/
def auditURL (rounds : List RoundInput) : List SEvent × Except String (List AveragedMetric) :=
  let guarded := tryFinallyT (loopRounds rounds) [SEvent.release]
  (SEvent.acquire :: guarded.1, guarded.2.map averageRuns)

/-- `numberOfRuns` (route.ts line 120). -/
def numberOfRuns : ℕ := 3

/-- The result part of `auditURL` when driven by a per-round oracle, with
the source's fixed `numberOfRuns = 3`. -/
def auditURLResult (oracle : ℕ → RoundInput) : Except String (List AveragedMetric) :=
  (auditURL ((List.range numberOfRuns).map oracle)).2

/-- Audit status in the API response shape. -/
inductive Status
  | success
  | error
deriving DecidableEq, Repr

/-- The API response shape `AuditResult` of route.ts (lines 48–53). -/
structure AuditResultS where
  url : String
  status : Status
  error : Option String
  gtmMetrics : List AveragedMetric
deriving DecidableEq, Repr

/-- The possible responses of the `POST` handler (route.ts lines 183–227):
the early 400 for a missing/non-string (or falsy) `url` body field, or a
status code paired with an `AuditResult` body. -/
inductive PostOut
  | missingUrl
  | response (code : ℕ) (r : AuditResultS)
deriving DecidableEq, Repr

/-- `POST` (route.ts lines 183–227).  `body` is the request's `url` field
(`none` when absent or not a string); an empty string is falsy in
JavaScript, so `!url` also rejects it.  `urlParses url` models whether
`new URL(url)` succeeds (the WHATWG URL parser, an external oracle).
`oracle` supplies the measurement rounds. -/
def POST (urlParses : String → Bool) : Option String → (ℕ → RoundInput) → PostOut
  | none, _ => PostOut.missingUrl
  | some url, oracle =>
    if url = "" then PostOut.missingUrl
    else if ¬ urlParses url then
      PostOut.response 400
        { url := url, status := Status.error
          error := some "Invalid URL format", gtmMetrics := [] }
    else
      match auditURLResult oracle with
      | Except.error msg =>
        PostOut.response 500
          { url := url, status := Status.error, error := some msg, gtmMetrics := [] }
      | Except.ok metrics =>
        PostOut.response 200
          { url := url, status := Status.success, error := none, gtmMetrics := metrics }

/-- The WhiteSpace and LineTerminator characters removed by JavaScript's
`String.prototype.trim`. -/
def isJsWhitespace (c : Char) : Bool :=
  c = ' ' || c = '\t' || c = '\n' || c = '\r' || c = '\u000B' || c = '\u000C' ||
  c = '\u00A0' || c = '\u1680' || ('\u2000' ≤ c && c ≤ '\u200A') ||
  c = '\u2028' || c = '\u2029' || c = '\u202F' || c = '\u205F' ||
  c = '\u3000' || c = '\uFEFF'

/-- `String.prototype.trim`. -/
def jsTrim (s : String) : String :=
  String.mk (((s.toList.dropWhile isJsWhitespace).reverse.dropWhile isJsWhitespace).reverse)

/-- JavaScript regex line terminators, which `.` does not match. -/
def isLineTerminator (c : Char) : Bool :=
  c = '\n' || c = '\r' || c = '\u2028' || c = '\u2029'

/-- The scheme part of the regex `^https?:\/\/` : returns the remainder of
the string after the matched scheme literal, if the string starts with
`https://` or `http://`. -/
def httpSchemeRest (cs : List Char) : Option (List Char) :=
  if startsList "https://".toList cs then some (cs.drop 8)
  else if startsList "http://".toList cs then some (cs.drop 7)
  else none

/-- `/^https?:\/\/.+/.test(t)` (page.tsx line 46): the string starts with
`http://` or `https://` followed by at least one non-line-terminator
character. -/
def urlRegexTest (t : String) : Bool :=
  match httpSchemeRest t.toList with
  | none => false
  | some rest =>
    match rest with
    | [] => false
    | c :: _ => ¬ isLineTerminator c

/-- `validateUrls` (page.tsx lines 45–51): keep the URLs whose trimmed
form is non-empty and passes the `^https?:\/\/.+` regex test. -/
def validateUrls (urlList : List String) : List String :=
  urlList.filter (fun url =>
    let trimmed := jsTrim url
    trimmed ≠ "" && urlRegexTest trimmed)

/-- The metric kinds of `getPerformanceStatus` (page.tsx line 53). -/
inductive MetricKind
  | blocking
  | cpu
  | script
deriving DecidableEq, Repr

/-- The classification returned by `getPerformanceStatus`. -/
inductive PerfStatus
  | good
  | warning
  | critical
deriving DecidableEq, Repr

/-- The per-kind thresholds of `getPerformanceStatus`
(page.tsx lines 54–58). -/
def thresholds : MetricKind → ℚ × ℚ
  | MetricKind.blocking => (100, 300)
  | MetricKind.cpu => (500, 1000)
  | MetricKind.script => (200, 500)

/-- `getPerformanceStatus` (page.tsx lines 53–64). -/
def getPerformanceStatus (value : ℚ) (metric : MetricKind) : PerfStatus :=
  let threshold := thresholds metric
  if value ≤ threshold.1 then PerfStatus.good
  else if value ≤ threshold.2 then PerfStatus.warning
  else PerfStatus.critical

/-- The client-side `AuditResult` interface (page.tsx lines 14–22): a flat
per-URL record with one aggregate value per metric and no per-container
list. -/
structure AuditResultC where
  url : String
  blockingTime : ℚ
  totalCpuTime : ℚ
  scriptEvaluation : ℚ
  scriptParseTime : ℚ
  status : Status
  error : Option String
deriving DecidableEq, Repr

/-- The client-side `AuditSummary` interface (page.tsx lines 24–31). -/
structure AuditSummary where
  totalUrls : ℕ
  successfulAudits : ℕ
  averageBlockingTime : ℤ
  averageCpuTime : ℤ
  averageScriptEval : ℤ
  averageParseTime : ℤ
deriving DecidableEq, Repr

/-- `calculateSummary` (page.tsx lines 74–97): averages each flat metric
field over the successful results (one data point per successful URL),
rounding with `Math.round`; all averages are `0` when there is no
successful result. -/
def calculateSummary (results : List AuditResultC) : AuditSummary :=
  let successfulResults := results.filter (fun r => r.status == Status.success)
  let total := successfulResults.length
  if total = 0 then
    { totalUrls := results.length, successfulAudits := 0
      averageBlockingTime := 0, averageCpuTime := 0
      averageScriptEval := 0, averageParseTime := 0 }
  else
    { totalUrls := results.length
      successfulAudits := total
      averageBlockingTime := jsRound ((successfulResults.map (fun r => r.blockingTime)).sum / total)
      averageCpuTime := jsRound ((successfulResults.map (fun r => r.totalCpuTime)).sum / total)
      averageScriptEval := jsRound ((successfulResults.map (fun r => r.scriptEvaluation)).sum / total)
      averageParseTime := jsRound ((successfulResults.map (fun r => r.scriptParseTime)).sum / total) }

/-- What one iteration of the `startAudit` fetch loop observes for a URL
(page.tsx lines 134–157): either a parsed JSON body from an OK response,
or a thrown error (network failure, non-OK HTTP status via
`throw new Error('HTTP ...')`, or a JSON parse failure), carrying the
message the `catch` block reads. -/
inductive FetchOutcome
  | ok (result : AuditResultC)
  | fail (msg : String)

/-- The per-URL result loop of `startAudit` (page.tsx lines 120–160):
one iteration per URL in order; an OK response's parsed body is pushed
verbatim; any thrown error is caught and converted to an error result for
that URL, and the loop continues. -/
def runBatch (fetchOracle : String → FetchOutcome) (urls : List String) : List AuditResultC :=
  urls.map (fun url =>
    match fetchOracle url with
    | FetchOutcome.ok r => r
    | FetchOutcome.fail msg =>
      { url := url, blockingTime := 0, totalCpuTime := 0
        scriptEvaluation := 0, scriptParseTime := 0
        status := Status.error, error := some msg })

/-- The per-container client `AuditResult` (layout.tsx lines 48–53, the
current frontend variant): mirrors the API response shape, with
`gtmMetrics` holding one entry per container. -/
structure AuditResultPC where
  url : String
  status : Status
  error : Option String
  gtmMetrics : List GtmMetric
deriving DecidableEq, Repr

/-- The per-container client `AuditSummary` (layout.tsx lines 55–62). -/
structure AuditSummaryPC where
  totalUrls : ℕ
  successfulAudits : ℕ
  totalContainers : ℕ
  averageCpuTime : ℤ
  averageScriptEval : ℤ
  averageParseTime : ℤ
deriving DecidableEq, Repr

/-- `successfulResults` of the per-container `calculateSummary`
(layout.tsx line 119). -/
def successfulResults (results : List AuditResultPC) : List AuditResultPC :=
  results.filter (fun r => r.status == Status.success)

/-- `allGtmMetrics` (layout.tsx line 120): the containers of all
successful results, flattened — one element per container per URL. -/
def allGtmMetrics (results : List AuditResultPC) : List GtmMetric :=
  (successfulResults results).flatMap (fun r => r.gtmMetrics)

/-- The `mean` helper of the per-container `calculateSummary`
(layout.tsx lines 134–135): `Math.round(arr.reduce((sum, v) => sum + v, 0)
/ arr.length)`; only called when `arr` is non-empty. -/
def meanRound (arr : List ℚ) : ℤ := jsRound (arr.sum / (arr.length : ℚ))

/-- The current per-container `calculateSummary` (layout.tsx lines
118–145): filters the successful results, flattens their `gtmMetrics`,
returns the zero summary when no container is present, and otherwise the
`Math.round`ed mean of each field over the flattened container list. -/
def calculateSummaryPerContainer (results : List AuditResultPC) : AuditSummaryPC :=
  let successful := successfulResults results
  let gtm := allGtmMetrics results
  let totalContainers := gtm.length
  if totalContainers = 0 then
    { totalUrls := results.length, successfulAudits := successful.length
      totalContainers := 0, averageCpuTime := 0
      averageScriptEval := 0, averageParseTime := 0 }
  else
    { totalUrls := results.length
      successfulAudits := successful.length
      totalContainers := totalContainers
      averageCpuTime := meanRound (gtm.map (fun m => m.totalCpuTime))
      averageScriptEval := meanRound (gtm.map (fun m => m.scriptEvaluation))
      averageParseTime := meanRound (gtm.map (fun m => m.scriptParseTime)) }

/-! ### Helper lemmas -/

lemma dedupKeys_mem {seen : List String} {l : List String} {x : String} :
    x ∈ dedupKeys seen l ↔ x ∈ l ∧ x ∉ seen := by
  induction l generalizing seen with
  | nil => simp [dedupKeys]
  | cons a tl ih =>
    by_cases ha : a ∈ seen
    · rw [dedupKeys, if_pos ha, ih]
      constructor
      · rintro ⟨h1, h2⟩; exact ⟨List.mem_cons_of_mem _ h1, h2⟩
      · rintro ⟨h1, h2⟩
        rcases List.mem_cons.mp h1 with rfl | h1'
        · exact absurd ha h2
        · exact ⟨h1', h2⟩
    · rw [dedupKeys, if_neg ha, List.mem_cons, ih]
      constructor
      · rintro (rfl | ⟨h1, h2⟩)
        · exact ⟨List.mem_cons_self _ _, ha⟩
        · refine ⟨List.mem_cons_of_mem _ h1, fun hs => h2 (List.mem_cons_of_mem _ hs)⟩
      · rintro ⟨h1, h2⟩
        by_cases hxa : x = a
        · exact Or.inl hxa
        · rcases List.mem_cons.mp h1 with rfl | h1'
          · exact absurd rfl hxa
          · refine Or.inr ⟨h1', fun hs => ?_⟩
            rcases List.mem_cons.mp hs with h | hs'
            · exact hxa h
            · exact h2 hs'

lemma dedupKeys_nodup (seen : List String) (l : List String) :
    (dedupKeys seen l).Nodup := by
  induction l generalizing seen with
  | nil => simp [dedupKeys]
  | cons a tl ih =>
    by_cases ha : a ∈ seen
    · rw [dedupKeys, if_pos ha]; exact ih seen
    · rw [dedupKeys, if_neg ha]
      refine List.Nodup.cons (fun hmem => ?_) (ih (a :: seen))
      exact (dedupKeys_mem.mp hmem).2 (List.mem_cons_self _ _)

lemma filter_beq_of_nodup {l : List String} {x : String}
    (hnd : l.Nodup) (hx : x ∈ l) : l.filter (fun y => y == x) = [x] := by
  induction l with
  | nil => cases hx
  | cons a tl ih =>
    rcases List.mem_cons.mp hx with rfl | hx'
    · have htl : tl.filter (fun y => y == x) = [] := by
        rw [List.filter_eq_nil_iff]
        intro b hb hba
        exact (List.nodup_cons.mp hnd).1 ((beq_iff_eq.mp hba) ▸ hb)
      simp [List.filter_cons, htl]
    · have hne : ¬ ((a == x) = true) := fun h =>
        (List.nodup_cons.mp hnd).1 ((beq_iff_eq.mp h) ▸ hx')
      rw [List.filter_cons, if_neg hne]
      exact ih (List.nodup_cons.mp hnd).2 hx'

lemma appearsIn_false_filter {id : String} {run : List GtmMetric}
    (h : appearsIn id run = false) :
    run.filter (fun m => m.containerId == id) = [] := by
  rw [List.filter_eq_nil_iff]
  intro m hm hbeq
  have := List.any_eq_false.mp h m hm
  exact this hbeq

lemma appearsIn_true_filter_ne {id : String} {run : List GtmMetric}
    (h : appearsIn id run = true) :
    run.filter (fun m => m.containerId == id) ≠ [] := by
  obtain ⟨m, hm, hbeq⟩ := List.any_eq_true.mp h
  intro hnil
  have := List.filter_eq_nil_iff.mp hnil m hm
  exact this hbeq

lemma samplesOf_cons (f : GtmMetric → ℚ) (id : String) (run : List GtmMetric)
    (runs : List (List GtmMetric)) :
    samplesOf f id (run :: runs) =
      ((run.filter (fun m => m.containerId == id)).map f) ++ samplesOf f id runs := by
  simp [samplesOf, flatMetrics, List.filter_append]

/-- The samples pushed for a container sum to the per-round values of the
rounds in which the container appeared (rounds without the container
contribute nothing). -/
lemma samplesOf_sum (f : GtmMetric → ℚ) (id : String) (runs : List (List GtmMetric)) :
    (samplesOf f id runs).sum = ((roundsWith id runs).map (roundValue f id)).sum := by
  induction runs with
  | nil => simp [samplesOf, flatMetrics, roundsWith]
  | cons run rest ih =>
    rw [samplesOf_cons, List.sum_append, ih]
    by_cases h : appearsIn id run = true
    · simp [roundsWith, List.filter, h, roundValue]
    · have hf : run.filter (fun m => m.containerId == id) = [] :=
        appearsIn_false_filter (Bool.eq_false_iff.mpr h ▸ rfl)
      have h' : appearsIn id run = false := Bool.eq_false_iff.mpr h
      simp [roundsWith, List.filter, h', hf]

/-- When each round holds at most one entry for a container, the number of
samples pushed for it equals the number of rounds in which it appeared. -/
lemma samplesOf_length (f : GtmMetric → ℚ) (id : String) (runs : List (List GtmMetric))
    (hone : ∀ run ∈ runs, (run.filter (fun m => m.containerId == id)).length ≤ 1) :
    (samplesOf f id runs).length = (roundsWith id runs).length := by
  induction runs with
  | nil => simp [samplesOf, flatMetrics, roundsWith]
  | cons run rest ih =>
    have hone' : ∀ r ∈ rest, (r.filter (fun m => m.containerId == id)).length ≤ 1 :=
      fun r hr => hone r (List.mem_cons_of_mem _ hr)
    rw [samplesOf_cons, List.length_append, List.length_map, ih hone']
    by_cases h : appearsIn id run = true
    · have hne := appearsIn_true_filter_ne h
      have hle := hone run (List.mem_cons_self _ _)
      have hge : 1 ≤ (run.filter (fun m => m.containerId == id)).length :=
        Nat.one_le_iff_ne_zero.mpr (fun h0 => hne (List.length_eq_zero.mp h0))
      have hlen : (run.filter (fun m => m.containerId == id)).length = 1 :=
        Nat.le_antisymm hle hge
      simp [roundsWith, List.filter, h, hlen, Nat.add_comm]
    · have h' : appearsIn id run = false := Bool.eq_false_iff.mpr h
      have hf := appearsIn_false_filter h'
      simp [roundsWith, List.filter, h', hf]

lemma roundsWith_ne_nil {id : String} {runs : List (List GtmMetric)}
    (happ : appearsIn id (flatMetrics runs) = true) :
    roundsWith id runs ≠ [] := by
  obtain ⟨m, hm, hbeq⟩ := List.any_eq_true.mp happ
  obtain ⟨run, hrun, hmr⟩ := List.mem_flatten.mp hm
  intro hnil
  have := List.filter_eq_nil_iff.mp hnil run hrun
  exact this (List.any_eq_true.mpr ⟨m, hmr, hbeq⟩)

/-- Under the same hypotheses as the stabilizer claim, the `mean` the code
takes over a container's sample array is the mean over the rounds in which
the container appeared. -/
lemma meanJS_samplesOf (f : GtmMetric → ℚ) (id : String) (runs : List (List GtmMetric))
    (hone : ∀ run ∈ runs, (run.filter (fun m => m.containerId == id)).length ≤ 1)
    (happ : appearsIn id (flatMetrics runs) = true) :
    meanJS (samplesOf f id runs) =
      ((roundsWith id runs).map (roundValue f id)).sum / ((roundsWith id runs).length : ℚ) := by
  have hlen := samplesOf_length f id runs hone
  have hsum := samplesOf_sum f id runs
  have hne : (samplesOf f id runs).length ≠ 0 := by
    rw [hlen]
    exact fun h0 => roundsWith_ne_nil happ (List.length_eq_zero.mp h0)
  rw [meanJS, if_neg hne, hsum, hlen]

/-- **C1.** For every multi-run stabilization and every container ID seen
across the rounds (with each round reporting at most one entry for that
ID, as a round's report does), the averaged output holds exactly one
`ContainerMetric` for that ID, and each of its three fields is the
`Math.round`ed arithmetic mean of that field over exactly the rounds in
which the ID appeared — rounds without the ID are skipped, not counted as
zero. -/
theorem stabilizer_per_container_mean (runs : List (List GtmMetric)) (id : String)
    (hone : ∀ run ∈ runs, (run.filter (fun m => m.containerId == id)).length ≤ 1)
    (happ : appearsIn id (flatMetrics runs) = true) :
    (averageRuns runs).filter (fun m => m.containerId == id) =
      [{ containerId := id
         totalCpuTime := jsRound
           (((roundsWith id runs).map (roundValue (fun m => m.totalCpuTime) id)).sum /
             ((roundsWith id runs).length : ℚ))
         scriptEvaluation := jsRound
           (((roundsWith id runs).map (roundValue (fun m => m.scriptEvaluation) id)).sum /
             ((roundsWith id runs).length : ℚ))
         scriptParseTime := jsRound
           (((roundsWith id runs).map (roundValue (fun m => m.scriptParseTime) id)).sum /
             ((roundsWith id runs).length : ℚ)) }] := by
  have hmem : id ∈ (flatMetrics runs).map (fun m => m.containerId) := by
    obtain ⟨m, hm, hbeq⟩ := List.any_eq_true.mp happ
    exact List.mem_map.mpr ⟨m, hm, beq_iff_eq.mp hbeq⟩
  have hkey : id ∈ dedupKeys [] ((flatMetrics runs).map (fun m => m.containerId)) :=
    dedupKeys_mem.mpr ⟨hmem, List.not_mem_nil id⟩
  rw [averageRuns, List.filter_map]
  have hcomp :
      ((fun m : AveragedMetric => m.containerId == id) ∘ (fun id' =>
        ({ containerId := id'
           totalCpuTime := jsRound (meanJS (samplesOf (fun m => m.totalCpuTime) id' runs))
           scriptEvaluation := jsRound (meanJS (samplesOf (fun m => m.scriptEvaluation) id' runs))
           scriptParseTime := jsRound (meanJS (samplesOf (fun m => m.scriptParseTime) id' runs)) }
           : AveragedMetric))) = fun id' => id' == id := rfl
  rw [hcomp, filter_beq_of_nodup (dedupKeys_nodup _ _) hkey]
  simp only [List.map_cons, List.map_nil]
  rw [meanJS_samplesOf _ _ _ hone happ, meanJS_samplesOf _ _ _ hone happ,
    meanJS_samplesOf _ _ _ hone happ]

/-- Witness for C1, instantiating the stabilizer claim's example: container
`GTM-X` observed with `totalCpuTime` 100, 200, 300 in rounds 1..3 averages
to 200 (the other fields likewise), while `GTM-Y`, present only in round 2,
is averaged only over that round (not over 3 rounds with zeros). -/
theorem stabilizer_per_container_mean_witness :
    (∀ run ∈ ([[⟨"GTM-X", 100, 10, 1⟩],
               [⟨"GTM-X", 200, 20, 2⟩, ⟨"GTM-Y", 50, 5, 5⟩],
               [⟨"GTM-X", 300, 30, 3⟩]] : List (List GtmMetric)),
        (run.filter (fun m => m.containerId == "GTM-X")).length ≤ 1) ∧
    appearsIn "GTM-X" (flatMetrics [[⟨"GTM-X", 100, 10, 1⟩],
               [⟨"GTM-X", 200, 20, 2⟩, ⟨"GTM-Y", 50, 5, 5⟩],
               [⟨"GTM-X", 300, 30, 3⟩]]) = true ∧
    (averageRuns [[⟨"GTM-X", 100, 10, 1⟩],
               [⟨"GTM-X", 200, 20, 2⟩, ⟨"GTM-Y", 50, 5, 5⟩],
               [⟨"GTM-X", 300, 30, 3⟩]]).filter (fun m => m.containerId == "GTM-X") =
      [{ containerId := "GTM-X", totalCpuTime := 200, scriptEvaluation := 20,
         scriptParseTime := 2 }] := by
  refine ⟨by decide, by decide, ?_⟩
  rw [stabilizer_per_container_mean _ _ (by decide) (by decide)]
  norm_num [roundsWith, appearsIn, roundValue, List.filter, jsRound,
    show (("GTM-Y" : String) == "GTM-X") = false from rfl]

lemma startsList_self_append (p t : List Char) : startsList p (p ++ t) = true := by
  induction p with
  | nil => rfl
  | cons a as ih => simp [startsList, ih]

lemma startsList_exists {p s : List Char} (h : startsList p s = true) :
    ∃ t, s = p ++ t := by
  induction p generalizing s with
  | nil => exact ⟨s, rfl⟩
  | cons a as ih =>
    cases s with
    | nil => simp [startsList] at h
    | cons b bs =>
      rw [startsList, Bool.and_eq_true, beq_iff_eq] at h
      obtain ⟨t, ht⟩ := ih h.2
      exact ⟨t, by rw [ht, h.1]; rfl⟩

lemma dropWhile_head_false (p : Char → Bool) :
    ∀ (l : List Char) (c : Char), (l.dropWhile p).head? = some c → p c = false := by
  intro l
  induction l with
  | nil => intro c h; simp [List.dropWhile] at h
  | cons a tl ih =>
    intro c h
    by_cases ha : p a = true
    · rw [List.dropWhile_cons_of_pos ha] at h
      exact ih c h
    · rw [List.dropWhile_cons_of_neg ha] at h
      have : a = c := by simpa using h
      rw [← this]
      exact Bool.eq_false_iff.mpr ha

lemma matchAt_sound {s cap : List Char} (h : matchAt s = some cap) :
    ∃ run post, s = gtmLit ++ (run ++ post) ∧ run ≠ [] ∧
      (∀ c ∈ run, isUpperAlnum c = true) ∧
      (∀ c, post.head? = some c → isUpperAlnum c = false) ∧
      cap = capHead ++ run := by
  rw [matchAt] at h
  by_cases hp : startsList gtmLit s = true
  · rw [if_pos hp] at h
    obtain ⟨t, rfl⟩ := startsList_exists hp
    rw [List.drop_left] at h
    by_cases hr : t.takeWhile isUpperAlnum = []
    · rw [if_pos hr] at h; cases h
    · rw [if_neg hr] at h
      refine ⟨t.takeWhile isUpperAlnum, t.dropWhile isUpperAlnum,
        by rw [List.takeWhile_append_dropWhile], hr, ?_, ?_, ?_⟩
      · exact fun c hc => List.mem_takeWhile_imp hc
      · exact fun c hc => dropWhile_head_false isUpperAlnum t c hc
      · exact (Option.some.injEq _ _ ▸ h).symm
  · rw [if_neg hp] at h; cases h

lemma matchAt_isSome {c : Char} (t : List Char) (hc : isUpperAlnum c = true) :
    (matchAt (gtmLit ++ c :: t)).isSome = true := by
  rw [matchAt, if_pos (startsList_self_append _ _), List.drop_left,
    List.takeWhile_cons_of_pos hc]
  simp

lemma findGtm_cons (a : Char) (tl : List Char) :
    findGtm (a :: tl) =
      match matchAt (a :: tl) with
      | some cap => some cap
      | none => findGtm tl := rfl

lemma findGtm_sound : ∀ {s cap : List Char}, findGtm s = some cap →
    ∃ pre run post, s = pre ++ gtmLit ++ (run ++ post) ∧ run ≠ [] ∧
      (∀ c ∈ run, isUpperAlnum c = true) ∧
      (∀ c, post.head? = some c → isUpperAlnum c = false) ∧
      cap = capHead ++ run := by
  intro s
  induction s with
  | nil => intro cap h; simp [findGtm] at h
  | cons a tl ih =>
    intro cap h
    rw [findGtm_cons] at h
    cases hm : matchAt (a :: tl) with
    | some cap' =>
      rw [hm] at h
      obtain ⟨run, post, hs, hne, hall, hpost, hcap⟩ := matchAt_sound hm
      refine ⟨[], run, post, by simpa using hs, hne, hall, hpost, ?_⟩
      cases h; exact hcap
    | none =>
      rw [hm] at h
      obtain ⟨pre, run, post, hs, hne, hall, hpost, hcap⟩ := ih h
      exact ⟨a :: pre, run, post, by rw [List.cons_append, List.cons_append, hs],
        hne, hall, hpost, hcap⟩

lemma findGtm_isSome_append (pre : List Char) :
    ∀ s : List Char, (matchAt s).isSome = true → (findGtm (pre ++ s)).isSome = true := by
  induction pre with
  | nil =>
    intro s h
    cases s with
    | nil => simp [matchAt, gtmLit, startsList] at h
    | cons b bs =>
      rw [List.nil_append, findGtm_cons]
      cases hm : matchAt (b :: bs) with
      | some cap => simp
      | none => rw [hm] at h; simp at h
  | cons a pre' ih =>
    intro s h
    rw [List.cons_append, findGtm_cons]
    cases hm : matchAt (a :: (pre' ++ s)) with
    | some cap => simp
    | none => simpa using ih s h

/-- The operational regex search succeeds exactly on the strings that
contain the literal `gtm.js?id=GTM-` followed by at least one uppercase
alphanumeric character. -/
lemma findGtm_isSome_iff (s : List Char) :
    (findGtm s).isSome = true ↔
      ∃ pre c post, s = pre ++ gtmLit ++ (c :: post) ∧ isUpperAlnum c = true := by
  constructor
  · intro h
    obtain ⟨cap, hcap⟩ := Option.isSome_iff_exists.mp h
    obtain ⟨pre, run, post, hs, hne, hall, _, _⟩ := findGtm_sound hcap
    cases run with
    | nil => exact absurd rfl hne
    | cons c run' =>
      exact ⟨pre, c, run' ++ post, by simpa using hs,
        hall c (List.mem_cons_self _ _)⟩
  · rintro ⟨pre, c, post, rfl, hc⟩
    rw [List.append_assoc]
    exact findGtm_isSome_append pre _ (matchAt_isSome post hc)

lemma gtm_filterMap_eq (items : List RawItem) :
    (items.filterMap (fun item =>
      match item.url with
      | none => none
      | some u =>
        match findGtm u.toList with
        | none => none
        | some cap =>
          some { containerId := String.mk cap
                 totalCpuTime := item.total.getD 0
                 scriptEvaluation := item.scripting.getD 0
                 scriptParseTime := item.scriptParseCompile.getD 0 })) =
    (items.filter itemMatches).map metricOf := by
  induction items with
  | nil => rfl
  | cons i tl ih =>
    rw [List.filterMap_cons, List.filter_cons]
    cases hu : i.url with
    | none =>
      have h1 : itemMatches i = false := by rw [itemMatches, hu]
      rw [h1]
      simpa using ih
    | some u =>
      cases hf : findGtm u.toList with
      | none =>
        have h1 : itemMatches i = false := by
          rw [itemMatches, hu]
          show (findGtm u.toList).isSome = false
          rw [hf]
          rfl
        have hf' : findGtm u.data = none := hf
        rw [h1]
        simpa [hf'] using ih
      | some cap =>
        have h1 : itemMatches i = true := by
          rw [itemMatches, hu]
          show (findGtm u.toList).isSome = true
          rw [hf]
          rfl
        have h2 : metricOf i =
            { containerId := String.mk cap
              totalCpuTime := i.total.getD 0
              scriptEvaluation := i.scripting.getD 0
              scriptParseTime := i.scriptParseCompile.getD 0 } := by
          rw [metricOf, captureOf, hu]
          show ({ containerId := String.mk ((findGtm u.toList).getD [])
                  totalCpuTime := i.total.getD 0
                  scriptEvaluation := i.scripting.getD 0
                  scriptParseTime := i.scriptParseCompile.getD 0 } : GtmMetric) = _
          rw [hf, Option.getD_some]
        have hf' : findGtm u.data = some cap := hf
        rw [h1, if_pos rfl, List.map_cons, h2, ih]
        simp [hf']

/-- **C2.** For every raw report with at least one GTM-matching entry, the
Extractor returns exactly one `ContainerMetric` per matching entry, in
report order, and none for non-matching entries (`metricOf` carries the
regex capture as the container ID and defaults each omitted numeric field
to 0).  Moreover the regex matcher succeeds exactly on URLs containing
`gtm.js?id=GTM-` followed by an uppercase alphanumeric, and every capture
is `GTM-` followed by the maximal nonempty uppercase-alphanumeric run at
the match position. -/
theorem extractMetrics_gtm_entries (items : List RawItem)
    (h : ∃ i ∈ items, itemMatches i = true) :
    extractMetrics items = Except.ok ((items.filter itemMatches).map metricOf) ∧
    (∀ s : String, (findGtm s.toList).isSome = true ↔
      ∃ pre c post, s.toList = pre ++ gtmLit ++ (c :: post) ∧ isUpperAlnum c = true) ∧
    (∀ (s : String) (cap : List Char), findGtm s.toList = some cap →
      ∃ pre run post, s.toList = pre ++ gtmLit ++ (run ++ post) ∧ run ≠ [] ∧
        (∀ c ∈ run, isUpperAlnum c = true) ∧
        (∀ c, post.head? = some c → isUpperAlnum c = false) ∧
        cap = capHead ++ run) := by
  refine ⟨?_, ?_, ?_⟩
  · obtain ⟨i, hi, hm⟩ := h
    have hne : (items.filter itemMatches).map metricOf ≠ [] := by
      intro h0
      have hnil : items.filter itemMatches = [] := List.map_eq_nil_iff.mp h0
      exact (List.filter_eq_nil_iff.mp hnil i hi) hm
    simp only [extractMetrics]
    rw [gtm_filterMap_eq, if_neg hne]
  · intro s
    exact findGtm_isSome_iff s.toList
  · intro s cap hc
    exact findGtm_sound hc

/-- A sample raw report used by the C2 witness: one non-GTM script, two
GTM containers (`GTM-AAA`, and `GTM-BBB` with omitted metric fields), and
one entry with a non-string URL. -/
def sampleReport : List RawItem :=
  [⟨some "https://cdn.example.com/analytics.js", some 400, some 40, some 4⟩,
   ⟨some "https://www.googletagmanager.com/gtm.js?id=GTM-AAA", some 120, some 30, some 7⟩,
   ⟨none, some 99, none, none⟩,
   ⟨some "https://www.googletagmanager.com/gtm.js?id=GTM-BBB&l=dataLayer", none, none, none⟩]

/-- Witness for C2: the sample report has a matching entry, and extraction
returns exactly one metric per matching entry. -/
theorem extractMetrics_gtm_entries_witness :
    (∃ i ∈ sampleReport, itemMatches i = true) ∧
    extractMetrics sampleReport =
      Except.ok ((sampleReport.filter itemMatches).map metricOf) :=
  ⟨by decide, (extractMetrics_gtm_entries _ (by decide)).1⟩

/-- **C3.** For every raw report with zero GTM-matching entries, the
Extractor fails with the no-container error message (which names the page
context) and never returns a list — in particular never an empty list as a
silent success. -/
theorem extractMetrics_no_container (items : List RawItem)
    (h : ∀ i ∈ items, itemMatches i = false) :
    extractMetrics items = Except.error noContainerMsg ∧
    ∀ l, extractMetrics items ≠ Except.ok l := by
  have hfil : items.filter itemMatches = [] :=
    List.filter_eq_nil_iff.mpr (fun i hi => by rw [h i hi]; simp)
  have hmain : extractMetrics items = Except.error noContainerMsg := by
    simp only [extractMetrics]
    rw [gtm_filterMap_eq, hfil]
    rfl
  exact ⟨hmain, fun l hl => by rw [hmain] at hl; cases hl⟩

/-- Witness for C3: a report holding only a non-GTM script and a
non-string URL makes the Extractor fail rather than succeed emptily. -/
theorem extractMetrics_no_container_witness :
    (∀ i ∈ ([⟨some "https://cdn.example.com/analytics.js", some 400, some 40, some 4⟩,
             ⟨none, none, none, none⟩] : List RawItem), itemMatches i = false) ∧
    extractMetrics [⟨some "https://cdn.example.com/analytics.js", some 400, some 40, some 4⟩,
             ⟨none, none, none, none⟩] = Except.error noContainerMsg ∧
    ∀ l, extractMetrics [⟨some "https://cdn.example.com/analytics.js", some 400, some 40, some 4⟩,
             ⟨none, none, none, none⟩] ≠ Except.ok l :=
  ⟨by decide, (extractMetrics_no_container _ (by decide)).1,
    (extractMetrics_no_container _ (by decide)).2⟩

lemma loopRounds_events_measure (rounds : List RoundInput) :
    (∀ e ∈ (loopRounds rounds).1, e = SEvent.measure) ∧
    (loopRounds rounds).1.length ≤ rounds.length := by
  induction rounds with
  | nil => simp [loopRounds]
  | cons ri rest ih =>
    cases ri with
    | fail m => simp [loopRounds]
    | report items =>
      cases hx : extractMetrics items with
      | error m => simp [loopRounds, hx]
      | ok ms =>
        refine ⟨?_, ?_⟩
        · intro e he
          rw [loopRounds, hx] at he
          simp only [List.mem_cons] at he
          rcases he with rfl | he'
          · rfl
          · exact ih.1 e he'
        · rw [loopRounds, hx]
          simpa using ih.2

/-- **C4.** For every behaviour of the measurement rounds — normal
completion or a throw in any round — `auditURL`'s event trace acquires the
browser session exactly once, at the very start, releases it exactly once,
at the very end, and everything in between is measurement activity bounded
by the number of rounds.  In particular the session is scoped to the whole
multi-run sequence, never reacquired per run, never leaked and never
double-released. -/
theorem auditURL_session_safety (rounds : List RoundInput) :
    (auditURL rounds).1.count SEvent.acquire = 1 ∧
    (auditURL rounds).1.count SEvent.release = 1 ∧
    ∃ mids, (auditURL rounds).1 = SEvent.acquire :: (mids ++ [SEvent.release]) ∧
      (∀ e ∈ mids, e = SEvent.measure) ∧ mids.length ≤ rounds.length := by
  obtain ⟨hall, hlen⟩ := loopRounds_events_measure rounds
  have htr : (auditURL rounds).1 = SEvent.acquire :: ((loopRounds rounds).1 ++ [SEvent.release]) := rfl
  have hacq : SEvent.acquire ∉ (loopRounds rounds).1 := by
    intro hmem
    cases hall _ hmem
  have hrel : SEvent.release ∉ (loopRounds rounds).1 := by
    intro hmem
    cases hall _ hmem
  refine ⟨?_, ?_, (loopRounds rounds).1, htr, hall, hlen⟩
  · rw [htr, List.count_cons, List.count_append, List.count_eq_zero.mpr hacq]
    rfl
  · rw [htr, List.count_cons, List.count_append, List.count_eq_zero.mpr hrel]
    rfl

/-- **C5.** The batch loop is total (never throws), returns exactly one
result per input URL, in input order: position `i` of the output comes
from position `i` of the input — an OK response's parsed body verbatim, or
an error result carrying that URL and the caught message — so one URL's
failure never disturbs the results of the others. -/
theorem runBatch_per_url (fetchOracle : String → FetchOutcome) (urls : List String) :
    (runBatch fetchOracle urls).length = urls.length ∧
    ∀ (i : ℕ) (u : String), urls[i]? = some u →
      (∀ m, fetchOracle u = FetchOutcome.fail m →
        (runBatch fetchOracle urls)[i]? =
          some { url := u, blockingTime := 0, totalCpuTime := 0, scriptEvaluation := 0,
                 scriptParseTime := 0, status := Status.error, error := some m }) ∧
      (∀ r, fetchOracle u = FetchOutcome.ok r →
        (runBatch fetchOracle urls)[i]? = some r) := by
  refine ⟨List.length_map _ _, ?_⟩
  intro i u hu
  constructor
  · intro m hm
    rw [runBatch, List.getElem?_map, hu, Option.map_some', hm]
  · intro r hr
    rw [runBatch, List.getElem?_map, hu, Option.map_some', hr]

/-- Witness for C5: with a fetch behaviour where `B` fails with `HTTP 500`
and `A`, `C` succeed, the batch `[A, B, C]` yields three results in order:
success for `A`, an error result for `B`, success for `C`. -/
theorem runBatch_per_url_witness :
    (runBatch
        (fun u => if u = "https://b.com" then FetchOutcome.fail "HTTP 500"
          else FetchOutcome.ok ⟨u, 10, 20, 30, 40, Status.success, none⟩)
        ["https://a.com", "https://b.com", "https://c.com"]).length = 3 ∧
    (runBatch
        (fun u => if u = "https://b.com" then FetchOutcome.fail "HTTP 500"
          else FetchOutcome.ok ⟨u, 10, 20, 30, 40, Status.success, none⟩)
        ["https://a.com", "https://b.com", "https://c.com"])[0]? =
      some ⟨"https://a.com", 10, 20, 30, 40, Status.success, none⟩ ∧
    (runBatch
        (fun u => if u = "https://b.com" then FetchOutcome.fail "HTTP 500"
          else FetchOutcome.ok ⟨u, 10, 20, 30, 40, Status.success, none⟩)
        ["https://a.com", "https://b.com", "https://c.com"])[1]? =
      some ⟨"https://b.com", 0, 0, 0, 0, Status.error, some "HTTP 500"⟩ ∧
    (runBatch
        (fun u => if u = "https://b.com" then FetchOutcome.fail "HTTP 500"
          else FetchOutcome.ok ⟨u, 10, 20, 30, 40, Status.success, none⟩)
        ["https://a.com", "https://b.com", "https://c.com"])[2]? =
      some ⟨"https://c.com", 10, 20, 30, 40, Status.success, none⟩ :=
  ⟨(runBatch_per_url _ _).1,
   ((runBatch_per_url _ _).2 0 "https://a.com" rfl).2 _ (by simp),
   ((runBatch_per_url _ _).2 1 "https://b.com" rfl).1 "HTTP 500" (by simp),
   ((runBatch_per_url _ _).2 2 "https://c.com" rfl).2 _ (by simp)⟩

/-- **C7.** The summary operation is a pure total function; on an input
with no successful result (the empty batch, or a batch of only errors) it
returns the zero summary — all averages `0` — without any division by
zero. -/
theorem calculateSummary_no_success (results : List AuditResultC)
    (h : ∀ r ∈ results, r.status = Status.error) :
    calculateSummary results =
      { totalUrls := results.length, successfulAudits := 0, averageBlockingTime := 0,
        averageCpuTime := 0, averageScriptEval := 0, averageParseTime := 0 } := by
  have hfil : results.filter (fun r => r.status == Status.success) = [] := by
    rw [List.filter_eq_nil_iff]
    intro r hr hb
    rw [h r hr] at hb
    cases hb
  rw [calculateSummary, hfil]
  rfl

/-- Witness for C7: the empty batch and an all-error batch both summarize
to the zero summary, with no exception possible. -/
theorem calculateSummary_no_success_witness :
    (∀ r ∈ ([] : List AuditResultC), r.status = Status.error) ∧
    calculateSummary [] =
      { totalUrls := 0, successfulAudits := 0, averageBlockingTime := 0,
        averageCpuTime := 0, averageScriptEval := 0, averageParseTime := 0 } ∧
    (∀ r ∈ [({ url := "https://a.com", blockingTime := 0, totalCpuTime := 0,
               scriptEvaluation := 0, scriptParseTime := 0, status := Status.error,
               error := some "HTTP 500" } : AuditResultC)], r.status = Status.error) ∧
    calculateSummary
        [{ url := "https://a.com", blockingTime := 0, totalCpuTime := 0,
           scriptEvaluation := 0, scriptParseTime := 0, status := Status.error,
           error := some "HTTP 500" }] =
      { totalUrls := 1, successfulAudits := 0, averageBlockingTime := 0,
        averageCpuTime := 0, averageScriptEval := 0, averageParseTime := 0 } :=
  ⟨by decide, calculateSummary_no_success [] (by decide),
   by decide, calculateSummary_no_success _ (by decide)⟩

/-- **C8.** The classification helper returns `good` iff the value is at
most the warning threshold, `warning` iff it lies strictly between the
warning and critical thresholds (inclusive above), and `critical` iff it
exceeds the critical threshold, with thresholds 500/1000 ms for `cpu` and
200/500 ms for `script` (used for both script evaluation and parse
times). -/
theorem getPerformanceStatus_spec (v : ℚ) :
    (getPerformanceStatus v MetricKind.cpu = PerfStatus.good ↔ v ≤ 500) ∧
    (getPerformanceStatus v MetricKind.cpu = PerfStatus.warning ↔ 500 < v ∧ v ≤ 1000) ∧
    (getPerformanceStatus v MetricKind.cpu = PerfStatus.critical ↔ 1000 < v) ∧
    (getPerformanceStatus v MetricKind.script = PerfStatus.good ↔ v ≤ 200) ∧
    (getPerformanceStatus v MetricKind.script = PerfStatus.warning ↔ 200 < v ∧ v ≤ 500) ∧
    (getPerformanceStatus v MetricKind.script = PerfStatus.critical ↔ 500 < v) := by
  simp only [getPerformanceStatus, thresholds]
  refine ⟨?_, ?_, ?_, ?_, ?_, ?_⟩ <;>
    (split_ifs with h1 h2 <;> simp_all <;> linarith)

lemma extractMetrics_ok_ne_nil {items : List RawItem} {l : List GtmMetric}
    (h : extractMetrics items = Except.ok l) : l ≠ [] := by
  rw [extractMetrics] at h
  split at h
  · cases h
  · next hne =>
      cases h
      exact hne

lemma loopRounds_ok_length {rounds : List RoundInput} {rs : List (List GtmMetric)}
    (h : (loopRounds rounds).2 = Except.ok rs) : rs.length = rounds.length := by
  induction rounds generalizing rs with
  | nil =>
    cases h
    rfl
  | cons ri rest ih =>
    cases ri with
    | fail m => cases h
    | report items =>
      simp only [loopRounds] at h
      cases hx : extractMetrics items with
      | error m => rw [hx] at h; cases h
      | ok ms =>
        rw [hx] at h
        simp only [] at h
        cases hn : (loopRounds rest).2 with
        | error m => rw [hn] at h; cases h
        | ok rs' =>
          rw [hn] at h
          cases h
          simp [ih hn]

lemma loopRounds_ok_runs_ne_nil {rounds : List RoundInput} {rs : List (List GtmMetric)}
    (h : (loopRounds rounds).2 = Except.ok rs) : ∀ run ∈ rs, run ≠ [] := by
  induction rounds generalizing rs with
  | nil =>
    cases h
    intro run hr
    cases hr
  | cons ri rest ih =>
    cases ri with
    | fail m => cases h
    | report items =>
      simp only [loopRounds] at h
      cases hx : extractMetrics items with
      | error m => rw [hx] at h; cases h
      | ok ms =>
        rw [hx] at h
        simp only [] at h
        cases hn : (loopRounds rest).2 with
        | error m => rw [hn] at h; cases h
        | ok rs' =>
          rw [hn] at h
          cases h
          intro run hr
          rcases List.mem_cons.mp hr with rfl | hr'
          · exact extractMetrics_ok_ne_nil hx
          · exact ih hn run hr'

lemma averageRuns_ne_nil {runs : List (List GtmMetric)}
    (hne : runs ≠ []) (hruns : ∀ run ∈ runs, run ≠ []) : averageRuns runs ≠ [] := by
  have hflat : flatMetrics runs ≠ [] := by
    intro h0
    cases runs with
    | nil => exact hne rfl
    | cons r rest =>
      have := (List.flatten_eq_nil_iff.mp h0) r (List.mem_cons_self _ _)
      exact hruns r (List.mem_cons_self _ _) this
  rw [averageRuns]
  intro h0
  have hkeys : dedupKeys [] ((flatMetrics runs).map (fun m => m.containerId)) = [] :=
    List.map_eq_nil_iff.mp h0
  cases hm : (flatMetrics runs).map (fun m => m.containerId) with
  | nil => exact hflat (List.map_eq_nil_iff.mp hm)
  | cons k ks =>
    rw [hm, dedupKeys, if_neg (List.not_mem_nil k)] at hkeys
    cases hkeys

lemma auditURLResult_ok_ne_nil {oracle : ℕ → RoundInput} {ms : List AveragedMetric}
    (h : auditURLResult oracle = Except.ok ms) : ms ≠ [] := by
  rw [auditURLResult, auditURL] at h
  simp only [tryFinallyT] at h
  cases hl : (loopRounds ((List.range numberOfRuns).map oracle)).2 with
  | error m => rw [hl] at h; cases h
  | ok rs =>
    rw [hl] at h
    cases h
    have hlen := loopRounds_ok_length hl
    have hrne : rs ≠ [] := by
      intro h0
      rw [h0] at hlen
      simp [numberOfRuns] at hlen
    exact averageRuns_ne_nil hrne (loopRounds_ok_runs_ne_nil hl)

/-- **C9.** Every `AuditResult` the per-URL `POST` handler produces
satisfies the invariant: an error result has empty `gtmMetrics` and a set
`error` field, and a success result has non-empty `gtmMetrics` — a page
with zero GTM containers can only surface as an error (the extractor
throws), never as a success with an empty list. -/
theorem post_result_invariant (urlParses : String → Bool) (body : Option String)
    (oracle : ℕ → RoundInput) (code : ℕ) (r : AuditResultS)
    (h : POST urlParses body oracle = PostOut.response code r) :
    (r.status = Status.error → r.gtmMetrics = [] ∧ r.error ≠ none) ∧
    (r.status = Status.success → r.gtmMetrics ≠ []) := by
  cases body with
  | none =>
    rw [show POST urlParses none oracle = PostOut.missingUrl from rfl] at h
    cases h
  | some url =>
    rw [show POST urlParses (some url) oracle =
      (if url = "" then PostOut.missingUrl
       else if ¬ urlParses url then
         PostOut.response 400
           { url := url, status := Status.error
             error := some "Invalid URL format", gtmMetrics := [] }
       else
         match auditURLResult oracle with
         | Except.error msg =>
           PostOut.response 500
             { url := url, status := Status.error, error := some msg, gtmMetrics := [] }
         | Except.ok metrics =>
           PostOut.response 200
             { url := url, status := Status.success, error := none,
               gtmMetrics := metrics }) from rfl] at h
    by_cases hurl : url = ""
    · rw [if_pos hurl] at h
      cases h
    · rw [if_neg hurl] at h
      by_cases hp : urlParses url = true
      · rw [if_neg (by rw [hp]; exact fun hc => hc rfl)] at h
        cases ha : auditURLResult oracle with
        | error msg =>
          rw [ha] at h
          cases h
          exact ⟨fun _ => ⟨rfl, fun hc => Option.noConfusion hc⟩, fun hs => Status.noConfusion hs⟩
        | ok metrics =>
          rw [ha] at h
          cases h
          exact ⟨fun he => Status.noConfusion he, fun _ => auditURLResult_ok_ne_nil ha⟩
      · rw [if_pos (by simpa using hp)] at h
        cases h
        exact ⟨fun _ => ⟨rfl, fun hc => Option.noConfusion hc⟩, fun hs => Status.noConfusion hs⟩

/-- Witness for C9: a parseable URL whose three measurement rounds all
throw produces a 500 error result with empty metrics and a set error
field, on which the invariant holds. -/
theorem post_result_invariant_witness :
    POST (fun _ => true) (some "https://a.com") (fun _ => RoundInput.fail "boom") =
      PostOut.response 500
        { url := "https://a.com", status := Status.error, error := some "boom",
          gtmMetrics := [] } ∧
    ((({ url := "https://a.com", status := Status.error, error := some "boom",
         gtmMetrics := [] } : AuditResultS).status = Status.error →
      ({ url := "https://a.com", status := Status.error, error := some "boom",
         gtmMetrics := [] } : AuditResultS).gtmMetrics = [] ∧
      ({ url := "https://a.com", status := Status.error, error := some "boom",
         gtmMetrics := [] } : AuditResultS).error ≠ none) ∧
     (({ url := "https://a.com", status := Status.error, error := some "boom",
         gtmMetrics := [] } : AuditResultS).status = Status.success →
      ({ url := "https://a.com", status := Status.error, error := some "boom",
         gtmMetrics := [] } : AuditResultS).gtmMetrics ≠ [])) :=
  ⟨by decide,
   post_result_invariant (fun _ => true) (some "https://a.com")
     (fun _ => RoundInput.fail "boom") 500
     { url := "https://a.com", status := Status.error, error := some "boom", gtmMetrics := [] }
     (by decide)⟩

lemma POST_some (urlParses : String → Bool) (url : String) (oracle : ℕ → RoundInput) :
    POST urlParses (some url) oracle =
      (if url = "" then PostOut.missingUrl
       else if ¬ urlParses url then
         PostOut.response 400
           { url := url, status := Status.error
             error := some "Invalid URL format", gtmMetrics := [] }
       else
         match auditURLResult oracle with
         | Except.error msg =>
           PostOut.response 500
             { url := url, status := Status.error, error := some msg, gtmMetrics := [] }
         | Except.ok metrics =>
           PostOut.response 200
             { url := url, status := Status.success, error := none,
               gtmMetrics := metrics }) := rfl

/-- **C10.** For every request whose `url` body field is a non-empty
string the URL-constructor oracle accepts — regardless of scheme — the
`POST` handler never answers with the 400 invalid-format rejection: it
always proceeds to measurement (a 200 success or 500 measurement-error
response for that URL).  The `http`/`https` scheme restriction lives only
in the client's `validateUrls` pre-filter, which rejects
`ftp://example.com` and accepts only strings whose trimmed form starts
with `http://` or `https://`. -/
theorem post_no_scheme_check (urlParses : String → Bool) (url : String)
    (oracle : ℕ → RoundInput) (hok : urlParses url = true) (hne : url ≠ "") :
    (∀ (code : ℕ) (r : AuditResultS),
      POST urlParses (some url) oracle = PostOut.response code r → code ≠ 400) ∧
    (∃ (code : ℕ) (r : AuditResultS),
      POST urlParses (some url) oracle = PostOut.response code r ∧
      (code = 200 ∨ code = 500) ∧ r.url = url) ∧
    validateUrls ["ftp://example.com"] = [] ∧
    (∀ s : String, s ∈ validateUrls [s] →
      (startsList "http://".toList (jsTrim s).toList ||
       startsList "https://".toList (jsTrim s).toList) = true) := by
  have hpost := POST_some urlParses url oracle
  rw [if_neg hne, if_neg (by rw [hok]; exact fun hc => hc rfl)] at hpost
  refine ⟨?_, ?_, by decide, ?_⟩
  · intro code r hr
    rw [hpost] at hr
    cases ha : auditURLResult oracle with
    | error msg =>
      rw [ha] at hr
      cases hr
      decide
    | ok metrics =>
      rw [ha] at hr
      cases hr
      decide
  · cases ha : auditURLResult oracle with
    | error msg =>
      exact ⟨500, _, by rw [hpost, ha], Or.inr rfl, rfl⟩
    | ok metrics =>
      exact ⟨200, _, by rw [hpost, ha], Or.inl rfl, rfl⟩
  · intro s hs
    have hmem := List.mem_filter.mp hs
    have hpred := hmem.2
    rw [Bool.and_eq_true] at hpred
    have htest := hpred.2
    rw [urlRegexTest] at htest
    cases hrest : httpSchemeRest (jsTrim s).toList with
    | none => rw [hrest] at htest; cases htest
    | some rest =>
      rw [httpSchemeRest] at hrest
      by_cases h1 : startsList "https://".toList (jsTrim s).toList = true
      · rw [h1, Bool.or_true]
      · rw [if_neg (by simpa using h1)] at hrest
        by_cases h2 : startsList "http://".toList (jsTrim s).toList = true
        · rw [h2, Bool.true_or]
        · rw [if_neg (by simpa using h2)] at hrest
          cases hrest

/-- Witness for C10: with a URL oracle that accepts everything, the
non-http(s) URL `ftp://example.com` is not rejected with 400 by the
handler, while the client pre-filter drops it. -/
theorem post_no_scheme_check_witness :
    ((fun _ : String => true) "ftp://example.com" = true) ∧
    ("ftp://example.com" ≠ "") ∧
    (∀ (code : ℕ) (r : AuditResultS),
      POST (fun _ => true) (some "ftp://example.com") (fun _ => RoundInput.fail "x") =
        PostOut.response code r → code ≠ 400) ∧
    validateUrls ["ftp://example.com"] = [] :=
  ⟨rfl, by decide,
   (post_no_scheme_check (fun _ => true) "ftp://example.com"
     (fun _ => RoundInput.fail "x") rfl (by decide)).1,
   (post_no_scheme_check (fun _ => true) "ftp://example.com"
     (fun _ => RoundInput.fail "x") rfl (by decide)).2.2.1⟩

lemma length_flatMap_gtm (rs : List AuditResultPC) :
    (rs.flatMap (fun r => r.gtmMetrics)).length =
      (rs.map (fun r => r.gtmMetrics.length)).sum := by
  induction rs with
  | nil => rfl
  | cons r tl ih => rw [List.flatMap_cons, List.length_append, ih, List.map_cons, List.sum_cons]

lemma sum_map_flatMap_gtm (f : GtmMetric → ℚ) (rs : List AuditResultPC) :
    ((rs.flatMap (fun r => r.gtmMetrics)).map f).sum =
      (rs.map (fun r => (r.gtmMetrics.map f).sum)).sum := by
  induction rs with
  | nil => rfl
  | cons r tl ih =>
    rw [List.flatMap_cons, List.map_append, List.sum_append, ih, List.map_cons, List.sum_cons]

/-- **C6.** For every batch whose successful results expose at least one
container, each batch-summary average of the per-container client is the
`Math.round`ed mean over the flattened list of all containers of all
successful results: stated per URL, the numerator is the sum of each
successful URL's per-container field values and the denominator the sum of
each successful URL's container count — so a URL with three containers
contributes three data points, never one pre-averaged point — and
`totalContainers` is that same count. -/
theorem calculateSummary_flattened_weighting (results : List AuditResultPC)
    (h : allGtmMetrics results ≠ []) :
    (calculateSummaryPerContainer results).totalUrls = results.length ∧
    (calculateSummaryPerContainer results).successfulAudits =
      (successfulResults results).length ∧
    (calculateSummaryPerContainer results).totalContainers =
      ((successfulResults results).map (fun r => r.gtmMetrics.length)).sum ∧
    (calculateSummaryPerContainer results).averageCpuTime =
      jsRound ((((successfulResults results).map
          (fun r => (r.gtmMetrics.map (fun m => m.totalCpuTime)).sum)).sum) /
        ((((successfulResults results).map (fun r => r.gtmMetrics.length)).sum : ℕ) : ℚ)) ∧
    (calculateSummaryPerContainer results).averageScriptEval =
      jsRound ((((successfulResults results).map
          (fun r => (r.gtmMetrics.map (fun m => m.scriptEvaluation)).sum)).sum) /
        ((((successfulResults results).map (fun r => r.gtmMetrics.length)).sum : ℕ) : ℚ)) ∧
    (calculateSummaryPerContainer results).averageParseTime =
      jsRound ((((successfulResults results).map
          (fun r => (r.gtmMetrics.map (fun m => m.scriptParseTime)).sum)).sum) /
        ((((successfulResults results).map (fun r => r.gtmMetrics.length)).sum : ℕ) : ℚ)) := by
  have hlen0 : ¬ (allGtmMetrics results).length = 0 :=
    fun h0 => h (List.length_eq_zero.mp h0)
  have hflat : allGtmMetrics results =
      (successfulResults results).flatMap (fun r => r.gtmMetrics) := rfl
  have hlen : (allGtmMetrics results).length =
      ((successfulResults results).map (fun r => r.gtmMetrics.length)).sum := by
    rw [hflat, length_flatMap_gtm]
  have hm : ∀ f : GtmMetric → ℚ, meanRound ((allGtmMetrics results).map f) =
      jsRound ((((successfulResults results).map (fun r => (r.gtmMetrics.map f).sum)).sum) /
        ((((successfulResults results).map (fun r => r.gtmMetrics.length)).sum : ℕ) : ℚ)) := by
    intro f
    rw [meanRound, List.length_map, hlen, hflat, sum_map_flatMap_gtm]
  simp only [calculateSummaryPerContainer]
  rw [if_neg hlen0]
  exact ⟨rfl, rfl, hlen, hm _, hm _, hm _⟩

/-- Witness for C6, instantiating the claim's example: one successful URL
with a single container at CPU 100 ms and one with two containers at 200
and 300 ms give `averageCpuTime = round((100+200+300)/3) = 200` over the
three flattened data points — and not `round((100+250)/2) = 175`, the
value the forbidden averaged-of-averages weighting would give. -/
theorem calculateSummary_flattened_weighting_witness :
    allGtmMetrics
      [{ url := "https://a.com", status := Status.success, error := none,
         gtmMetrics := [⟨"GTM-A", 100, 10, 1⟩] },
       { url := "https://b.com", status := Status.success, error := none,
         gtmMetrics := [⟨"GTM-B", 200, 20, 2⟩, ⟨"GTM-C", 300, 30, 3⟩] }] ≠ [] ∧
    (calculateSummaryPerContainer
      [{ url := "https://a.com", status := Status.success, error := none,
         gtmMetrics := [⟨"GTM-A", 100, 10, 1⟩] },
       { url := "https://b.com", status := Status.success, error := none,
         gtmMetrics := [⟨"GTM-B", 200, 20, 2⟩, ⟨"GTM-C", 300, 30, 3⟩] }]).averageCpuTime =
      200 ∧
    (calculateSummaryPerContainer
      [{ url := "https://a.com", status := Status.success, error := none,
         gtmMetrics := [⟨"GTM-A", 100, 10, 1⟩] },
       { url := "https://b.com", status := Status.success, error := none,
         gtmMetrics := [⟨"GTM-B", 200, 20, 2⟩, ⟨"GTM-C", 300, 30, 3⟩] }]).totalContainers =
      3 ∧
    jsRound (((100 : ℚ) + 250) / 2) = 175 ∧ (200 : ℤ) ≠ 175 := by
  refine ⟨by decide, ?_, ?_, ?_, by decide⟩
  · rw [(calculateSummary_flattened_weighting _ (by decide)).2.2.2.1]
    norm_num [successfulResults, List.filter, jsRound]
  · rw [(calculateSummary_flattened_weighting _ (by decide)).2.2.1]
    norm_num [successfulResults, List.filter]
  · norm_num [jsRound]
